import Mathlib

/-!
Verification of the bbh-sim repository specification.

The repository is a set of browser demos: the Conscious Cosmos Simulator —
a coupled-oscillator network over a diffusing dark-matter grid, whose full
HTML script is embedded in src/README.md — a gravitational-wave event
browser (src/js/main.js), and a cosmic-network visualizer (src/Three.js).
Numbers that are JavaScript floats are embedded as exact rationals or reals.
-/

namespace BBHSim

/-- From src/README.md (Conscious Cosmos Simulator, DarkMatterGrid): the
field this.grid, a 2D array of scalars, embedded as a list of rows (the
constructor builds a rectangular width-by-height array).  Reading a cell
out of range yields 0. -/
def gridGet (g : List (List ℚ)) (i j : ℕ) : ℚ :=
  (g.getD i []).getD j 0

/-- From src/README.md (DarkMatterGrid.diffuse): the loop bounds
  for (i = 1; i < this.width - 1; i++) for (j = 1; j < this.height - 1; j++)
— a cell not in the outermost row or column.  The code reads the
constructor-fixed this.width / this.height; the grid being rectangular,
they are embedded as the list lengths. -/
def isInterior (g : List (List ℚ)) (i j : ℕ) : Prop :=
  1 ≤ i ∧ i + 1 < g.length ∧ 1 ≤ j ∧ j + 1 < (g.getD i []).length

instance (g : List (List ℚ)) (i j : ℕ) : Decidable (isInterior g i j) := by
  unfold isInterior; infer_instance

/-- From src/README.md (DarkMatterGrid.diffuse, defaults D=0.1, alpha=0.01):
  const newGrid = this.grid.map(arr => [...arr]);
  ... newGrid[i][j] = this.grid[i][j] + D * laplace - alpha * this.grid[i][j];
  this.grid = newGrid;
with laplace = grid[i+1][j] + grid[i-1][j] + grid[i][j+1] + grid[i][j-1]
- 4 * grid[i][j].  All reads are from this.grid, the pre-step copy, and all
writes go to the fresh newGrid, so the step is a pure function of the
previous grid `g` (the read-only snapshot of spec 4.2); border cells keep
the copied values. -/
def diffStep (D alpha : ℚ) (g : List (List ℚ)) : List (List ℚ) :=
  (List.range g.length).map fun i =>
    (List.range (g.getD i []).length).map fun j =>
      if isInterior g i j then
        gridGet g i j
          + D * (gridGet g (i + 1) j + gridGet g (i - 1) j
                 + gridGet g i (j + 1) + gridGet g i (j - 1)
                 - 4 * gridGet g i j)
          - alpha * gridGet g i j
      else gridGet g i j

/-- A constant 5-by-5 grid, whose interior is a 3-by-3 block; every interior
and border value equals v. -/
def constGrid (v : ℚ) : List (List ℚ) :=
  List.replicate 5 (List.replicate 5 v)

/-- From src/README.md (Conscious Cosmos Simulator, class Node): fields
phi (phase), omega (natFreq), A (amplitude), K (coupling) and neighbors.
In the script the neighbors are object references into the nodes array
(assigned once at startup); they are embedded as positions in that array,
the order the render loop iterates.  The carrier is kept polymorphic so
the definitions stay executable; the theorems instantiate it at the reals
with the real sine. -/
structure OscNode (R : Type) where
  phase : R
  natFreq : R
  amplitude : R
  coupling : R
  neighbors : List ℕ

/-- A default node used for out-of-range neighbor reads. -/
def zeroOsc {R : Type} [CommRing R] : OscNode R :=
  ⟨0, 0, 0, 0, []⟩

/-- Read node j from the node list (out-of-range reads give the zero node;
in the demo all neighbor references point into the list). -/
def oget {R : Type} [CommRing R] (nodes : List (OscNode R)) (j : ℕ) :
    OscNode R :=
  nodes.getD j zeroOsc

/-- From src/README.md (Node.updatePhase):
  let dphi = 0;
  for (let n of this.neighbors) dphi += n.K * Math.sin(n.phi - this.phi);
  this.phi += (this.omega + dphi) * dt;
The coupling strength multiplying each sine term is read from the NEIGHBOR
node (oget ns j).coupling, not from n itself — the asymmetry the spec
preserves verbatim.  `ns` is the node list AT THE MOMENT of the call, so
the neighbor phases read here may already have been updated this frame;
`s` is the sine function. -/
def nextPhase {R : Type} [CommRing R] (s : R → R) (dt : R)
    (ns : List (OscNode R)) (n : OscNode R) : R :=
  n.phase + (n.natFreq +
    (n.neighbors.map fun j =>
      (oget ns j).coupling * s ((oget ns j).phase - n.phase)).sum) * dt

/-- From src/README.md (animate loop body): one call node.updatePhase(DT)
on the node at position i — entry i of the current list is replaced by the
node with the advanced phase, every read coming from the current, possibly
partially updated, list. -/
def stepIdx {R : Type} [CommRing R] (s : R → R) (dt : R)
    (ns : List (OscNode R)) (i : ℕ) : List (OscNode R) :=
  ns.set i { oget ns i with phase := nextPhase s dt ns (oget ns i) }

/-- The first k iterations of the render loop update
  nodes.forEach(node => node.updatePhase(DT));
nodes 0 .. k-1 updated in order, in place. -/
def oscUpTo {R : Type} [CommRing R] (s : R → R) (dt : R)
    (nodes : List (OscNode R)) (k : ℕ) : List (OscNode R) :=
  (List.range k).foldl (fun ns i => stepIdx s dt ns i) nodes

/-- From src/README.md (animate): one full frame of phase updates, the
forEach over the whole nodes array.  The updates are sequential and in
place: a node whose neighbor precedes it in the array reads that neighbor
phase as already updated this frame. -/
def oscFrame {R : Type} [CommRing R] (s : R → R) (dt : R)
    (nodes : List (OscNode R)) : List (OscNode R) :=
  oscUpTo s dt nodes nodes.length

/-- From src/js/main.js (runSim handler): the chirp-mass proxy
  Math.pow((m1 * m2) ** (3/5) / Math.pow(m1 + m2, 1/5), 1).
The power function is passed as an argument and the carrier is kept
polymorphic so the definition stays executable; theorems instantiate it at
the reals with the real power Real.rpow. -/
def chirpMass {R : Type} [Field R] (p : R → R → R) (m1 m2 : R) : R :=
  p (p (m1 * m2) (3 / 5) / p (m1 + m2) (1 / 5)) 1

/-- From src/js/main.js (runSim handler): the time sequence
  Array.from(\x7blength: 1000\x7d, (_, i) => (i / 1000) * dur * 10). -/
def timeSeq (dur : ℚ) : List ℚ :=
  (List.range 1000).map fun i => (Nat.cast i / 1000 : ℚ) * dur * 10

/-- From src/js/main.js: an event record of the loaded events list
(id, name, date, freq, amplitude, desc). -/
structure EventRecord where
  id : String
  name : String
  date : String
  freq : ℚ
  amplitude : ℚ
  desc : String
deriving DecidableEq

/-- From src/js/main.js: the mutable state the loadEvent click handler
touches — the module-level currentEvent variable and the currently
displayed waveform plot (modelled as the event whose waveform Plotly last
drew). -/
structure DemoState where
  currentEvent : Option EventRecord
  shownPlot : Option EventRecord
deriving DecidableEq

/-- From src/js/main.js (loadEvent onclick):
  currentEvent = data.events.find(e => e.id === id);
  if (currentEvent) \x7b showFacts(currentEvent); plotWaveform(currentEvent); \x7d
The find result is assigned to currentEvent unconditionally; the plot is
redrawn only when the event was found. -/
def loadEventClick (events : List EventRecord) (id : String)
    (s : DemoState) : DemoState :=
  match events.find? (fun e => e.id == id) with
  | some ev => { currentEvent := some ev, shownPlot := some ev }
  | none => { currentEvent := none, shownPlot := s.shownPlot }

/-- From src/Three.js: a scene node of the cosmic-network visualizer,
reduced to the data the handlers touch (random position and hue). -/
structure CNode where
  pos : ℚ × ℚ × ℚ
  hue : ℚ
deriving DecidableEq

/-- From src/Three.js: the module-level mutable state the two input
handlers touch — the nodes array and the rotationSpeed scalar. -/
structure ThreeState where
  nodes : List CNode
  rotationSpeed : ℚ
deriving DecidableEq

/-- From src/Three.js (addNodes): pushes count freshly created nodes onto
the list; `mk` supplies the randomized node for each loop index. -/
def addNodes (mk : ℕ → CNode) (count : ℕ) (ns : List CNode) : List CNode :=
  ns ++ (List.range count).map mk

/-- From src/Three.js (nodeCount input handler):
  clearNodes(); addNodes(n);
i.e. the nodes array is emptied and repopulated with n fresh nodes. -/
def nodeCountHandler (mk : ℕ → CNode) (n : ℕ) (s : ThreeState) :
    ThreeState :=
  { s with nodes := addNodes mk n [] }

/-- From src/Three.js (speed input handler):
  rotationSpeed = parseFloat(e.target.value). -/
def speedHandler (v : ℚ) (s : ThreeState) : ThreeState :=
  { s with rotationSpeed := v }

/-- From src/README.md (Conscious Cosmos Simulator): the module-level
mutable state its two slider handlers touch — the shared scalars K and
FREQ_SCALE and the nodes array. -/
structure CosmosUI (R : Type) where
  K : R
  freqScale : R
  nodes : List (OscNode R)

/-- From src/README.md (kSlider input handler):
  K = parseFloat(e.target.value);
  nodes.forEach(node => node.K = K);
the shared scalar K is set AND every node stored coupling coefficient is
overwritten with the new value. -/
def kSliderHandler {R : Type} [CommRing R] (v : R) (st : CosmosUI R) :
    CosmosUI R :=
  { st with K := v, nodes := st.nodes.map fun n => { n with coupling := v } }

/-- From src/README.md (freqSlider input handler):
  FREQ_SCALE = parseFloat(e.target.value);
  nodes.forEach(node => node.omega = Math.random() * 2 * Math.PI * FREQ_SCALE);
the shared scalar is set AND every node natural frequency is
re-randomized; `rnd j` stands for the Math.random() draw of node j and
`twoPi` for 2 * Math.PI. -/
def freqSliderHandler {R : Type} [CommRing R] (rnd : ℕ → R) (twoPi v : R)
    (st : CosmosUI R) : CosmosUI R :=
  { st with
      freqScale := v,
      nodes := st.nodes.mapIdx fun j n =>
        { n with natFreq := rnd j * twoPi * v } }

/-- A concrete two-node oscillator network: node 0 has phase 0,
frequency 1, coupling 2 and the single neighbor 1. -/
def oscA : OscNode ℝ :=
  ⟨0, 1, 1, 2, [1]⟩

/-- The second concrete node: phase 3, frequency 5, coupling 7,
single neighbor 0. -/
def oscB : OscNode ℝ :=
  ⟨3, 5, 1, 7, [0]⟩

/-- A concrete node with no neighbors: phase 0, frequency 1, coupling 1. -/
def cnA : OscNode ℝ :=
  ⟨0, 1, 1, 1, []⟩

/-- A concrete node whose only neighbor is node 0: phase 0, frequency 0,
coupling 5. -/
def cnB : OscNode ℝ :=
  ⟨0, 0, 1, 5, [0]⟩

/-- A concrete Conscious Cosmos state: K = 1, FREQ_SCALE = 1, one node. -/
def cosmos0 : CosmosUI ℝ :=
  ⟨1, 1, [oscA]⟩

/-- A concrete 3-by-3 grid used for concrete instantiations. -/
def g0 : List (List ℚ) :=
  [[1, 2, 3], [4, 5, 6], [7, 8, 9]]

/-- A concrete 3-by-3 grid with values in the unit interval. -/
def g01 : List (List ℚ) :=
  [[1, 0, 1], [0, 1, 0], [1, 0, 1]]

/-- A concrete node factory for the Three.js handlers. -/
def mkZeroNode : ℕ → CNode :=
  fun _ => ⟨(0, 0, 0), 0⟩

/-- A concrete Three.js state: 25 nodes (the startup count) and the
startup rotation speed 0.01. -/
def threeS0 : ThreeState :=
  ⟨List.replicate 25 ⟨(0, 0, 0), 0⟩, 1 / 100⟩

/-- A concrete loaded event. -/
def ev1 : EventRecord :=
  ⟨"GW150914", "GW150914", "2015-09-14", 150, 1, "first detection"⟩

/-- A concrete demo state in which ev1 is selected and plotted. -/
def demoS1 : DemoState :=
  ⟨some ev1, some ev1⟩

theorem diffStep_length (D alpha : ℚ) (g : List (List ℚ)) :
    (diffStep D alpha g).length = g.length := by
  simp [diffStep]

theorem diffStep_row_length (D alpha : ℚ) (g : List (List ℚ)) (i : ℕ)
    (hi : i < g.length) :
    ((diffStep D alpha g).getD i []).length = (g.getD i []).length := by
  have h1 : i < (List.range g.length).length := by simpa using hi
  simp [diffStep, List.getD_eq_getElem?_getD, List.getElem?_map,
    List.getElem?_range, hi]

theorem gridGet_diffStep (D alpha : ℚ) (g : List (List ℚ)) (i j : ℕ)
    (hi : i < g.length) (hj : j < (g.getD i []).length) :
    gridGet (diffStep D alpha g) i j =
      if isInterior g i j then
        gridGet g i j
          + D * (gridGet g (i + 1) j + gridGet g (i - 1) j
                 + gridGet g i (j + 1) + gridGet g i (j - 1)
                 - 4 * gridGet g i j)
          - alpha * gridGet g i j
      else gridGet g i j := by
  have hg : g.getD i [] = g[i] := by
    simp [List.getD_eq_getElem?_getD, List.getElem?_eq_getElem hi]
  have hj2 : j < g[i].length := by rwa [hg] at hj
  unfold diffStep
  simp [gridGet, List.getD_eq_getElem?_getD, List.getElem?_map,
    List.getElem?_range, hi, hj, hj2, hg]

theorem gridGet_eq_zero (g : List (List ℚ)) (a b : ℕ)
    (h : ¬(a < g.length ∧ b < (g.getD a []).length)) :
    gridGet g a b = 0 := by
  unfold gridGet
  by_cases ha : a < g.length
  · have hb : (g.getD a []).length ≤ b := by
      push_neg at h
      exact h ha
    rw [List.getD_eq_getElem?_getD, List.getElem?_eq_none hb]
    rfl
  · have ha2 : g.length ≤ a := by omega
    rw [List.getD_eq_getElem?_getD g a, List.getElem?_eq_none ha2]
    rfl

theorem gridGet_mem_unit (g : List (List ℚ))
    (hg : ∀ a, a < g.length → ∀ b, b < (g.getD a []).length →
      0 ≤ gridGet g a b ∧ gridGet g a b ≤ 1) (a b : ℕ) :
    0 ≤ gridGet g a b ∧ gridGet g a b ≤ 1 := by
  by_cases h : a < g.length ∧ b < (g.getD a []).length
  · exact hg a h.1 b h.2
  · rw [gridGet_eq_zero g a b h]
    norm_num

theorem gridGet_constGrid (v : ℚ) (a b : ℕ) (ha : a < 5) (hb : b < 5) :
    gridGet (constGrid v) a b = v := by
  unfold gridGet constGrid
  rw [List.getD_eq_getElem?_getD (List.replicate 5 (List.replicate 5 v)) a,
    List.getElem?_replicate, if_pos ha, Option.getD_some,
    List.getD_eq_getElem?_getD, List.getElem?_replicate, if_pos hb,
    Option.getD_some]

theorem oget_set_ne {R : Type} [CommRing R] (ns : List (OscNode R))
    (x : OscNode R) (i j : ℕ) (h : i ≠ j) :
    oget (ns.set i x) j = oget ns j := by
  simp [oget, List.getD_eq_getElem?_getD, List.getElem?_set_ne h]

theorem oget_set_self {R : Type} [CommRing R] (ns : List (OscNode R))
    (x : OscNode R) (i : ℕ) (h : i < ns.length) :
    oget (ns.set i x) i = x := by
  simp [oget, List.getD_eq_getElem?_getD, List.getElem?_set_self h]

theorem oscUpTo_succ {R : Type} [CommRing R] (s : R → R) (dt : R)
    (nodes : List (OscNode R)) (k : ℕ) :
    oscUpTo s dt nodes (k + 1) = stepIdx s dt (oscUpTo s dt nodes k) k := by
  unfold oscUpTo
  rw [List.range_succ, List.foldl_append]
  rfl

theorem oscUpTo_length {R : Type} [CommRing R] (s : R → R) (dt : R)
    (nodes : List (OscNode R)) (k : ℕ) :
    (oscUpTo s dt nodes k).length = nodes.length := by
  induction k with
  | zero => rfl
  | succ n ih =>
    rw [oscUpTo_succ]
    unfold stepIdx
    rw [List.length_set]
    exact ih

theorem oget_oscUpTo_of_le {R : Type} [CommRing R] (s : R → R) (dt : R)
    (nodes : List (OscNode R)) (i : ℕ) :
    ∀ k, k ≤ i → oget (oscUpTo s dt nodes k) i = oget nodes i := by
  intro k
  induction k with
  | zero => intro _; rfl
  | succ n ih =>
    intro hk
    rw [oscUpTo_succ]
    unfold stepIdx
    rw [oget_set_ne _ _ _ _ (by omega)]
    exact ih (by omega)

theorem oget_oscUpTo_add {R : Type} [CommRing R] (s : R → R) (dt : R)
    (nodes : List (OscNode R)) (i : ℕ) :
    ∀ d, oget (oscUpTo s dt nodes (i + 1 + d)) i =
      oget (oscUpTo s dt nodes (i + 1)) i := by
  intro d
  induction d with
  | zero => rfl
  | succ n ih =>
    rw [show i + 1 + (n + 1) = (i + 1 + n) + 1 by omega, oscUpTo_succ]
    unfold stepIdx
    rw [oget_set_ne _ _ _ _ (by omega)]
    exact ih

theorem oscUpTo_coupling {R : Type} [CommRing R] (s : R → R) (dt : R)
    (nodes : List (OscNode R)) :
    ∀ k, k ≤ nodes.length → ∀ j,
      (oget (oscUpTo s dt nodes k) j).coupling = (oget nodes j).coupling := by
  intro k
  induction k with
  | zero => intro _ j; rfl
  | succ n ih =>
    intro hk j
    rw [oscUpTo_succ]
    unfold stepIdx
    by_cases hj : n = j
    · subst hj
      rw [oget_set_self _ _ _ (by rw [oscUpTo_length]; omega)]
      exact ih (by omega) n
    · rw [oget_set_ne _ _ _ _ hj]
      exact ih (by omega) j

/-- C1 counterexample: the claimed snapshot formula
φ = φᵢ + Δt * (ωᵢ + Σ over j in neighbors(i) of Kⱼ * sin(φⱼ - φᵢ)),
with every φⱼ read from the PRE-STEP phases, is false of the render loop:
the forEach updates phases in place, so on [cnA, cnB] with Δt = 1 node 1
reads the already-advanced phase of its neighbor 0 (sin 1 instead of the
pre-step sin 0). -/
theorem oscFrame_not_snapshot :
    (oget (oscFrame Real.sin 1 [cnA, cnB]) 1).phase ≠
      (oget [cnA, cnB] 1).phase + ((oget [cnA, cnB] 1).natFreq +
        ((oget [cnA, cnB] 1).neighbors.map fun j =>
          (oget [cnA, cnB] j).coupling *
            Real.sin ((oget [cnA, cnB] j).phase -
              (oget [cnA, cnB] 1).phase)).sum) * 1 := by
  have hL : (oget (oscFrame Real.sin 1 [cnA, cnB]) 1).phase = Real.sin 1 := by
    show (oget (oscUpTo Real.sin 1 [cnA, cnB] 2) 1).phase = Real.sin 1
    rw [show (2 : ℕ) = 1 + 1 from rfl, oscUpTo_succ,
      show (1 : ℕ) = 0 + 1 from rfl, oscUpTo_succ]
    simp [stepIdx, nextPhase, oget, cnA, cnB, zeroOsc, oscUpTo]
  have hR : (oget [cnA, cnB] 1).phase + ((oget [cnA, cnB] 1).natFreq +
      ((oget [cnA, cnB] 1).neighbors.map fun j =>
        (oget [cnA, cnB] j).coupling *
          Real.sin ((oget [cnA, cnB] j).phase -
            (oget [cnA, cnB] 1).phase)).sum) * 1 = 0 := by
    simp [oget, cnA, cnB]
  rw [hL, hR]
  have hpos : 0 < Real.sin 1 :=
    Real.sin_pos_of_pos_of_lt_pi one_pos (by linarith [Real.pi_gt_three])
  exact ne_of_gt hpos

/-- C1 amended: the render loop updates the nodes sequentially, in place,
in array order.  For node i, one frame advances its phase to
φ = φᵢ + (ωᵢ + Σ over j in neighbors(i) of Kⱼ * sin(φⱼ* - φᵢ)) * Δt,
where φᵢ and ωᵢ are node i pre-step values, the coupling Kⱼ is the
neighbor own stored coefficient (never modified during the frame, hence
its pre-step value — not node i own coefficient), and φⱼ* is neighbor j
phase at the moment node i updates (oscUpTo .. i): already advanced this
frame for neighbors earlier in the array, pre-step for the others. -/
theorem oscFrame_phase (dt : ℝ) (nodes : List (OscNode ℝ)) (i : ℕ)
    (h : i < nodes.length) :
    (oget (oscFrame Real.sin dt nodes) i).phase =
      (oget nodes i).phase + ((oget nodes i).natFreq +
        ((oget nodes i).neighbors.map fun j =>
          (oget nodes j).coupling *
            Real.sin ((oget (oscUpTo Real.sin dt nodes i) j).phase -
              (oget nodes i).phase)).sum) * dt := by
  have hfix : oget (oscFrame Real.sin dt nodes) i =
      oget (oscUpTo Real.sin dt nodes (i + 1)) i := by
    have hd := oget_oscUpTo_add Real.sin dt nodes i (nodes.length - (i + 1))
    unfold oscFrame
    rw [show nodes.length = i + 1 + (nodes.length - (i + 1)) by omega]
    exact hd
  have hstep : oget (oscUpTo Real.sin dt nodes (i + 1)) i =
      { oget (oscUpTo Real.sin dt nodes i) i with
        phase := nextPhase Real.sin dt (oscUpTo Real.sin dt nodes i)
          (oget (oscUpTo Real.sin dt nodes i) i) } := by
    rw [oscUpTo_succ]
    unfold stepIdx
    exact oget_set_self _ _ _ (by rw [oscUpTo_length]; exact h)
  have hii : oget (oscUpTo Real.sin dt nodes i) i = oget nodes i :=
    oget_oscUpTo_of_le Real.sin dt nodes i i le_rfl
  have hmap : ((oget nodes i).neighbors.map fun j =>
      (oget (oscUpTo Real.sin dt nodes i) j).coupling *
        Real.sin ((oget (oscUpTo Real.sin dt nodes i) j).phase -
          (oget nodes i).phase)) =
      ((oget nodes i).neighbors.map fun j =>
      (oget nodes j).coupling *
        Real.sin ((oget (oscUpTo Real.sin dt nodes i) j).phase -
          (oget nodes i).phase)) :=
    List.map_congr_left fun j _ => by
      rw [oscUpTo_coupling Real.sin dt nodes i (le_of_lt h) j]
  rw [hfix, hstep]
  show nextPhase Real.sin dt (oscUpTo Real.sin dt nodes i)
      (oget (oscUpTo Real.sin dt nodes i) i) = _
  unfold nextPhase
  rw [hii, hmap]

/-- C1 amended witness: the in-place phase formula evaluated on the
concrete two-node network [oscA, oscB] at node 1 with Δt = 1. -/
theorem oscFrame_phase_witness :
    1 < [oscA, oscB].length ∧
      (oget (oscFrame Real.sin 1 [oscA, oscB]) 1).phase =
        (oget [oscA, oscB] 1).phase + ((oget [oscA, oscB] 1).natFreq +
          ((oget [oscA, oscB] 1).neighbors.map fun j =>
            (oget [oscA, oscB] j).coupling *
              Real.sin ((oget (oscUpTo Real.sin 1 [oscA, oscB] 1) j).phase -
                (oget [oscA, oscB] 1).phase)).sum) * 1 :=
  ⟨by simp, oscFrame_phase 1 [oscA, oscB] 1 (by simp)⟩

theorem gridGet_diffStep_interior (D alpha : ℚ) (g : List (List ℚ))
    (i j : ℕ) (hint : isInterior g i j) :
    gridGet (diffStep D alpha g) i j =
      gridGet g i j
        + D * (gridGet g (i + 1) j + gridGet g (i - 1) j
               + gridGet g i (j + 1) + gridGet g i (j - 1)
               - 4 * gridGet g i j)
        - alpha * gridGet g i j := by
  obtain ⟨h1, h2, h3, h4⟩ := hint
  rw [gridGet_diffStep D alpha g i j (by omega) (by omega)]
  exact if_pos ⟨h1, h2, h3, h4⟩

/-- C2: for every interior cell (i,j), one diffusion step computes
gNext(i,j) = g(i,j) + D * (g(i+1,j) + g(i-1,j) + g(i,j+1) + g(i,j-1)
- 4 g(i,j)) - alpha * g(i,j), with every neighbor value read from the
pre-step grid g itself (the read-only snapshot), never from the grid under
construction. -/
theorem diffStep_interior (D alpha : ℚ) (g : List (List ℚ)) (i j : ℕ)
    (hint : isInterior g i j) :
    gridGet (diffStep D alpha g) i j =
      gridGet g i j
        + D * (gridGet g (i + 1) j + gridGet g (i - 1) j
               + gridGet g i (j + 1) + gridGet g i (j - 1)
               - 4 * gridGet g i j)
        - alpha * gridGet g i j :=
  gridGet_diffStep_interior D alpha g i j hint

/-- C2 witness: the interior formula evaluated at the center cell of a
concrete 3-by-3 grid with D = 1/2 and alpha = 1/3. -/
theorem diffStep_interior_witness :
    isInterior g0 1 1 ∧
      gridGet (diffStep (1 / 2) (1 / 3) g0) 1 1 =
        gridGet g0 1 1
          + (1 / 2) * (gridGet g0 2 1 + gridGet g0 0 1
                 + gridGet g0 1 2 + gridGet g0 1 0
                 - 4 * gridGet g0 1 1)
          - (1 / 3) * gridGet g0 1 1 :=
  ⟨by decide, diffStep_interior (1 / 2) (1 / 3) g0 1 1 (by decide)⟩

/-- C3 counterexample: on the constant 5-by-5 grid of value 1, with the
code per-frame default constants D = 1/10 and alpha = 1/100
(DarkMatterGrid.diffuse), one diffusion step CHANGES the interior cell
(2,2) from 1 to 99/100: the claim that interior values are unchanged is
false, because the update also applies the decay term - alpha * g(i,j). -/
theorem diffStep_const_changes :
    gridGet (diffStep (1 / 10) (1 / 100) (constGrid 1)) 2 2 ≠
      gridGet (constGrid 1) 2 2 := by
  rw [gridGet_diffStep (1 / 10) (1 / 100) (constGrid 1) 2 2 (by decide)
    (by decide), if_pos (by decide : isInterior (constGrid 1) 2 2),
    gridGet_constGrid 1 2 2 (by omega) (by omega),
    gridGet_constGrid 1 (2 + 1) 2 (by omega) (by omega),
    gridGet_constGrid 1 (2 - 1) 2 (by omega) (by omega),
    gridGet_constGrid 1 2 (2 + 1) (by omega) (by omega),
    gridGet_constGrid 1 2 (2 - 1) (by omega) (by omega)]
  norm_num

/-- C3 amended: on a constant grid of value v (5-by-5, so the interior is
a 3-by-3 block), one diffusion step sends every interior cell to
(1 - alpha) * v, independent of the diffusion constant D: the D-dependent
Laplacian term vanishes on a constant field, and only the decay acts.
Interior values are unchanged exactly when alpha * v = 0. -/
theorem diffStep_const (D alpha v : ℚ) (i j : ℕ)
    (hi : 1 ≤ i ∧ i ≤ 3) (hj : 1 ≤ j ∧ j ≤ 3) :
    gridGet (diffStep D alpha (constGrid v)) i j = (1 - alpha) * v := by
  have hrow : (constGrid v).getD i [] = List.replicate 5 v := by
    unfold constGrid
    rw [List.getD_eq_getElem?_getD, List.getElem?_replicate,
      if_pos (show i < 5 by omega), Option.getD_some]
  have hint : isInterior (constGrid v) i j := by
    refine ⟨hi.1, ?_, hj.1, ?_⟩
    · simp only [constGrid, List.length_replicate]
      omega
    · rw [hrow]
      simp only [List.length_replicate]
      omega
  rw [gridGet_diffStep_interior D alpha (constGrid v) i j hint,
    gridGet_constGrid v i j (by omega) (by omega),
    gridGet_constGrid v (i + 1) j (by omega) (by omega),
    gridGet_constGrid v (i - 1) j (by omega) (by omega),
    gridGet_constGrid v i (j + 1) (by omega) (by omega),
    gridGet_constGrid v i (j - 1) (by omega) (by omega)]
  ring

/-- C3 amended witness: with v = 1, D = 2, alpha = 1/3, the interior cell
(2,2) of the constant grid becomes (1 - 1/3) * 1. -/
theorem diffStep_const_witness :
    ((1 : ℕ) ≤ 2 ∧ (2 : ℕ) ≤ 3) ∧
      gridGet (diffStep 2 (1 / 3) (constGrid 1)) 2 2 = (1 - 1 / 3) * 1 :=
  ⟨by decide, diffStep_const 2 (1 / 3) 1 2 2 (by decide) (by decide)⟩

/-- C4 counterexample: the node-count control of src/Three.js does NOT
update a single shared scalar: starting from the startup state (25 nodes),
its input handler replaces the whole nodes array, so the nodes list is not
left intact. -/
theorem nodeCount_not_scalar :
    (nodeCountHandler mkZeroNode 5 threeS0).nodes ≠ threeS0.nodes := by
  decide

/-- C4 amended: only the rotation-speed control updates exactly one shared
scalar (rotationSpeed; node list untouched).  The node-count control
replaces the whole node list with n fresh nodes, leaving rotationSpeed
unchanged.  The coupling-strength control (kSlider) sets the shared K
scalar AND overwrites every node stored coupling coefficient (freqScale
and the other node fields untouched).  The frequency-scale control
(freqSlider) sets the shared frequency-scale scalar AND re-randomizes
every node natural frequency to draw * 2π * scale (K and the other node
fields untouched). -/
theorem controls_update (v : ℚ) (s : ThreeState) (mk : ℕ → CNode) (n : ℕ)
    (w x : ℝ) (st : CosmosUI ℝ) (rnd : ℕ → ℝ) :
    speedHandler v s = ⟨s.nodes, v⟩ ∧
      nodeCountHandler mk n s = ⟨(List.range n).map mk, s.rotationSpeed⟩ ∧
      (nodeCountHandler mk n s).nodes.length = n ∧
      (kSliderHandler w st).K = w ∧
      (kSliderHandler w st).freqScale = st.freqScale ∧
      (kSliderHandler w st).nodes.length = st.nodes.length ∧
      (∀ j, j < st.nodes.length →
        oget (kSliderHandler w st).nodes j =
          { oget st.nodes j with coupling := w }) ∧
      (freqSliderHandler rnd (2 * Real.pi) x st).K = st.K ∧
      (freqSliderHandler rnd (2 * Real.pi) x st).freqScale = x ∧
      (freqSliderHandler rnd (2 * Real.pi) x st).nodes.length =
        st.nodes.length ∧
      (∀ j, j < st.nodes.length →
        oget (freqSliderHandler rnd (2 * Real.pi) x st).nodes j =
          { oget st.nodes j with natFreq := rnd j * (2 * Real.pi) * x }) := by
  refine ⟨rfl, by simp [nodeCountHandler, addNodes],
    by simp [nodeCountHandler, addNodes], rfl, rfl,
    by simp [kSliderHandler], ?_, rfl, rfl, by simp [freqSliderHandler], ?_⟩
  · intro j hj
    simp [kSliderHandler, oget, List.getD_eq_getElem?_getD,
      List.getElem?_map, List.getElem?_eq_getElem hj]
  · intro j hj
    unfold freqSliderHandler oget
    rw [List.getD_eq_getElem?_getD, List.getElem?_mapIdx,
      List.getElem?_eq_getElem hj, List.getD_eq_getElem?_getD,
      List.getElem?_eq_getElem hj]
    rfl

/-- C4 amended witness: on the concrete one-node state cosmos0, the
kSlider handler with value 2 rewrites the node coupling to 2, and the
freqSlider handler with value 3 rewrites the node frequency to
1 * 2π * 3. -/
theorem controls_update_witness :
    oget (kSliderHandler (2 : ℝ) cosmos0).nodes 0 =
        { oget cosmos0.nodes 0 with coupling := (2 : ℝ) } ∧
      oget (freqSliderHandler (fun _ => 1) (2 * Real.pi) 3 cosmos0).nodes 0 =
        { oget cosmos0.nodes 0 with natFreq := (1 : ℝ) * (2 * Real.pi) * 3 } :=
  ⟨(controls_update 0 threeS0 mkZeroNode 0 2 3 cosmos0
      (fun _ => 1)).2.2.2.2.2.2.1 0 (by simp [cosmos0]),
    (controls_update 0 threeS0 mkZeroNode 0 2 3 cosmos0
      (fun _ => 1)).2.2.2.2.2.2.2.2.2.2 0 (by simp [cosmos0])⟩

/-- C5 counterexample: selecting an event id absent from the loaded list is
NOT a no-op on the state: from a state in which ev1 is selected and
plotted, clicking load with the unknown id GW000000 changes the state
(currentEvent is overwritten with the failed lookup). -/
theorem loadEvent_mutates :
    loadEventClick [ev1] "GW000000" demoS1 ≠ demoS1 := by
  decide

/-- C5 amended: selecting an event id absent from the loaded list raises no
exception and leaves the displayed plot unchanged, but it does mutate one
piece of state: currentEvent is unconditionally overwritten with the lookup
result, hence becomes none. -/
theorem loadEvent_absent (events : List EventRecord) (id : String)
    (s : DemoState) (h : ∀ e ∈ events, e.id ≠ id) :
    loadEventClick events id s = ⟨none, s.shownPlot⟩ := by
  unfold loadEventClick
  have hf : events.find? (fun e => e.id == id) = none := by
    rw [List.find?_eq_none]
    intro e he
    simpa using h e he
  rw [hf]

/-- C5 amended witness: clicking load with the unknown id GW000000 from the
state in which ev1 is selected and plotted clears currentEvent and keeps
the plot of ev1. -/
theorem loadEvent_absent_witness :
    (∀ e ∈ [ev1], e.id ≠ "GW000000") ∧
      loadEventClick [ev1] "GW000000" demoS1 = ⟨none, some ev1⟩ :=
  ⟨by decide, loadEvent_absent [ev1] "GW000000" demoS1 (by decide)⟩

theorem diffStep_bounds (D alpha : ℚ) (g : List (List ℚ))
    (hD : 0 ≤ D) (hal : 0 ≤ alpha) (hs : 4 * D + alpha ≤ 1)
    (hg : ∀ a, a < g.length → ∀ b, b < (g.getD a []).length →
      0 ≤ gridGet g a b ∧ gridGet g a b ≤ 1) :
    ∀ a b, 0 ≤ gridGet (diffStep D alpha g) a b ∧
      gridGet (diffStep D alpha g) a b ≤ 1 := by
  intro a b
  by_cases hab : a < g.length ∧ b < (g.getD a []).length
  · rw [gridGet_diffStep D alpha g a b hab.1 hab.2]
    by_cases hint : isInterior g a b
    · rw [if_pos hint]
      obtain ⟨h0, h1⟩ := gridGet_mem_unit g hg a b
      obtain ⟨p0, p1⟩ := gridGet_mem_unit g hg (a + 1) b
      obtain ⟨q0, q1⟩ := gridGet_mem_unit g hg (a - 1) b
      obtain ⟨r0, r1⟩ := gridGet_mem_unit g hg a (b + 1)
      obtain ⟨t0, t1⟩ := gridGet_mem_unit g hg a (b - 1)
      constructor
      · nlinarith [mul_nonneg hD p0, mul_nonneg hD q0, mul_nonneg hD r0,
          mul_nonneg hD t0,
          mul_nonneg (by linarith : (0 : ℚ) ≤ 1 - 4 * D - alpha) h0]
      · nlinarith [mul_nonneg hD (by linarith : (0 : ℚ) ≤ 1 - gridGet g (a + 1) b),
          mul_nonneg hD (by linarith : (0 : ℚ) ≤ 1 - gridGet g (a - 1) b),
          mul_nonneg hD (by linarith : (0 : ℚ) ≤ 1 - gridGet g a (b + 1)),
          mul_nonneg hD (by linarith : (0 : ℚ) ≤ 1 - gridGet g a (b - 1)),
          mul_nonneg (by linarith : (0 : ℚ) ≤ 1 - gridGet g a b)
            (by linarith : (0 : ℚ) ≤ 1 - 4 * D),
          mul_nonneg hal h0]
    · rw [if_neg hint]
      exact gridGet_mem_unit g hg a b
  · have hz : gridGet (diffStep D alpha g) a b = 0 := by
      apply gridGet_eq_zero
      intro hc
      obtain ⟨hc1, hc2⟩ := hc
      rw [diffStep_length] at hc1
      rw [diffStep_row_length D alpha g a hc1] at hc2
      exact hab ⟨hc1, hc2⟩
    rw [hz]
    norm_num

/-- C6: with the code per-frame constants D = 0.1 and alpha = 0.01 (the
defaults of DarkMatterGrid.diffuse, which the render loop call
dmGrid.diffuse() uses every frame), a grid whose cells all lie in [0,1] —
as after the Math.random() initialization — still has every cell in [0,1]
after one diffusion-and-decay step. -/
theorem diffStep_mem_unit (g : List (List ℚ))
    (hg : ∀ a, a < g.length → ∀ b, b < (g.getD a []).length →
      0 ≤ gridGet g a b ∧ gridGet g a b ≤ 1) :
    ∀ a b, 0 ≤ gridGet (diffStep (1 / 10) (1 / 100) g) a b ∧
      gridGet (diffStep (1 / 10) (1 / 100) g) a b ≤ 1 :=
  diffStep_bounds (1 / 10) (1 / 100) g (by norm_num) (by norm_num)
    (by norm_num) hg

/-- C6 witness: on a concrete 3-by-3 grid of zeros and ones, the cell
updated with the code constants lies in [0,1]. -/
theorem diffStep_mem_unit_witness :
    0 ≤ gridGet (diffStep (1 / 10) (1 / 100) g01) 1 1 ∧
      gridGet (diffStep (1 / 10) (1 / 100) g01) 1 1 ≤ 1 :=
  diffStep_mem_unit g01 (by decide) 1 1

/-- C7: one diffusion step preserves every border cell exactly: a cell in
the outermost row or column keeps the value it had before the step. -/
theorem diffStep_border (D alpha : ℚ) (g : List (List ℚ)) (i j : ℕ)
    (hi : i < g.length) (hj : j < (g.getD i []).length)
    (hb : i = 0 ∨ i + 1 = g.length ∨ j = 0 ∨
      j + 1 = (g.getD i []).length) :
    gridGet (diffStep D alpha g) i j = gridGet g i j := by
  have hni : ¬ isInterior g i j := by
    rintro ⟨h1, h2, h3, h4⟩
    rcases hb with h | h | h | h <;> omega
  rw [gridGet_diffStep D alpha g i j hi hj, if_neg hni]

/-- C7 witness: on the concrete 3-by-3 grid, the top-border cell (0,1) is
unchanged by a step with D = 1/2 and alpha = 1/3. -/
theorem diffStep_border_witness :
    (0 < g0.length ∧ 1 < (g0.getD 0 []).length) ∧
      gridGet (diffStep (1 / 2) (1 / 3) g0) 0 1 = gridGet g0 0 1 :=
  ⟨by decide, diffStep_border (1 / 2) (1 / 3) g0 0 1 (by decide) (by decide)
    (Or.inl rfl)⟩

/-- C8: the chirp-mass proxy of src/js/main.js is symmetric in its two
mass arguments, for all positive masses. -/
theorem chirpMass_symm (m1 m2 : ℝ) (h1 : 0 < m1) (h2 : 0 < m2) :
    chirpMass Real.rpow m1 m2 = chirpMass Real.rpow m2 m1 := by
  unfold chirpMass
  rw [mul_comm, add_comm]

/-- C8 witness: symmetry at the concrete masses 1 and 2. -/
theorem chirpMass_symm_witness :
    0 < (1 : ℝ) ∧ 0 < (2 : ℝ) ∧
      chirpMass Real.rpow (1 : ℝ) 2 = chirpMass Real.rpow 2 1 :=
  ⟨one_pos, two_pos, chirpMass_symm 1 2 one_pos two_pos⟩

/-- C9: with m1 = 30, m2 = 25, dur = 4, the chirp-mass proxy equals
(30 * 25) ^ 0.6 / 55 ^ 0.2, and the generated time sequence has exactly
1000 samples, the i-th being i / 25 — evenly spaced, starting at 0 and
staying below 40. -/
theorem runSim_example :
    chirpMass Real.rpow 30 25 =
        (750 : ℝ) ^ (0.6 : ℝ) / (55 : ℝ) ^ (0.2 : ℝ) ∧
      (timeSeq 4).length = 1000 ∧
      (∀ i, i < 1000 → (timeSeq 4).getD i 0 = (i : ℚ) * (1 / 25)) ∧
      (∀ i, i < 1000 →
        0 ≤ (timeSeq 4).getD i 0 ∧ (timeSeq 4).getD i 0 < 40) := by
  have hsp : ∀ i, i < 1000 → (timeSeq 4).getD i 0 = (i : ℚ) * (1 / 25) := by
    intro i hi
    unfold timeSeq
    rw [List.getD_eq_getElem?_getD, List.getElem?_map,
      List.getElem?_range hi]
    show (Nat.cast i / 1000 : ℚ) * 4 * 10 = (i : ℚ) * (1 / 25)
    ring
  refine ⟨?_, by simp [timeSeq], hsp, ?_⟩
  · have h1 : chirpMass Real.rpow (30 : ℝ) 25 =
        ((30 : ℝ) * 25) ^ ((3 : ℝ) / 5) / ((30 : ℝ) + 25) ^ ((1 : ℝ) / 5) := by
      show (((30 : ℝ) * 25) ^ ((3 : ℝ) / 5) /
        ((30 : ℝ) + 25) ^ ((1 : ℝ) / 5)) ^ (1 : ℝ) = _
      exact Real.rpow_one _
    have e6 : (0.6 : ℝ) = (3 : ℝ) / 5 := by norm_num
    have e2 : (0.2 : ℝ) = (1 : ℝ) / 5 := by norm_num
    rw [h1, e6, e2]
    norm_num
  · intro i hi
    rw [hsp i hi]
    constructor
    · positivity
    · have hc : (i : ℚ) < 1000 := by exact_mod_cast hi
      linarith

/-- C9 witness: the last sample, index 999, is nonnegative and below 40. -/
theorem runSim_example_witness :
    0 ≤ (timeSeq 4).getD 999 0 ∧ (timeSeq 4).getD 999 0 < 40 :=
  runSim_example.2.2.2 999 (by norm_num)

end BBHSim
